import Mathlib

/-
Verification development for the pyespn repository.

The repository is a declarative client adapter for a fantasy-sports HTTP
API.  The definitions below are shallow embeddings of the functions in
src/pyespn/api_gateway.py, src/pyespn/codebook.py and the calling
convention in src/pyespn/league.py.  JSON values are modelled by the
inductive `Json`; Python dicts become association lists that preserve
insertion order, with assignment semantics (update in place if the key
exists, append otherwise) mirrored by `ainsert`.

Two models of the field-remap utility `APIGateway._map_item` are given:
a pure value-level model (`mapItem`), and an explicit-heap model
(`mapItemH`) in which Python object identity and in-place mutation are
represented by addresses in a store.  The heap model is needed because
`_set_by_path(out, dst, val)` stores `val` by reference, so the copy
`out` can alias sub-objects of the original `item`; later writes then
mutate the original input.  The heap model exhibits that behaviour on
concrete inputs.
-/

set_option autoImplicit false

/-- Association-list lookup, the embedding of Python `d.get(k)` /
`k in d` on dicts (Python dicts are insertion-ordered; the first match
is the only match since keys are unique, and lookup on a list with
duplicate keys takes the first, which is what `ainsert` maintains). -/
def alookup {κ α : Type} [DecidableEq κ] : List (κ × α) → κ → Option α
  | [], _ => none
  | (k0, v0) :: rest, k => if k0 = k then some v0 else alookup rest k

/-- Association-list assignment, the embedding of Python `d[k] = v`:
update in place if the key exists (keeping its position), append
otherwise. -/
def ainsert {κ α : Type} [DecidableEq κ] : List (κ × α) → κ → α → List (κ × α)
  | [], k, v => [(k, v)]
  | (k0, v0) :: rest, k, v =>
      if k0 = k then (k0, v) :: rest else (k0, v0) :: ainsert rest k v

theorem alookup_ainsert_self {κ α : Type} [DecidableEq κ]
    (l : List (κ × α)) (k : κ) (v : α) :
    alookup (ainsert l k v) k = some v := by
  induction l with
  | nil => simp [ainsert, alookup]
  | cons h t ih =>
    obtain ⟨k0, v0⟩ := h
    by_cases hk : k0 = k
    · simp [ainsert, alookup, hk]
    · simp [ainsert, alookup, hk, ih]

theorem alookup_ainsert_ne {κ α : Type} [DecidableEq κ]
    (l : List (κ × α)) (k k' : κ) (v : α) (hne : k' ≠ k) :
    alookup (ainsert l k v) k' = alookup l k' := by
  induction l with
  | nil => simp [ainsert, alookup, Ne.symm hne]
  | cons h t ih =>
    obtain ⟨k0, v0⟩ := h
    by_cases hk : k0 = k
    · have hkk' : k0 ≠ k' := by rw [hk]; exact Ne.symm hne
      simp [ainsert, alookup, hk, hkk', Ne.symm hne]
    · by_cases hk' : k0 = k'
      · simp [ainsert, alookup, hk, hk', hne]
      · simp [ainsert, alookup, hk, hk', ih]

/-- JSON values as decoded by `resp.json()`. -/
inductive Json where
  | null : Json
  | num (n : Int) : Json
  | str (s : String) : Json
  | bool (b : Bool) : Json
  | arr (xs : List Json) : Json
  | obj (fields : List (String × Json)) : Json

/-- A JSON object body (a Python dict), insertion-ordered. -/
abbrev JObj := List (String × Json)

/-- Worker for `splitDots`, accumulating the current segment in reverse. -/
def splitDotsAux : List Char → List Char → List String
  | [], acc => [String.mk acc.reverse]
  | c :: rest, acc =>
      if c = '.' then String.mk acc.reverse :: splitDotsAux rest []
      else splitDotsAux rest (c :: acc)

/-- Embedding of Python `path.split(".")` used by `_get_by_path` and
`_set_by_path`: splits on every dot, yielding empty segments for
consecutive dots and a singleton list with one empty string for the
empty path (so the result is never the empty list). -/
def splitDots (p : String) : List String := splitDotsAux p.toList []

theorem splitDotsAux_ne_nil (cs : List Char) (acc : List Char) :
    splitDotsAux cs acc ≠ [] := by
  induction cs generalizing acc with
  | nil => simp [splitDotsAux]
  | cons c rest ih =>
    by_cases hc : c = '.'
    · simp [splitDotsAux, hc]
    · simpa [splitDotsAux, hc] using ih (c :: acc)

theorem splitDots_ne_nil (p : String) : splitDots p ≠ [] :=
  splitDotsAux_ne_nil p.toList []

/-- Embedding of the traversal loop of `APIGateway._map_item._get_by_path`
(api_gateway.py lines 233-245): walk the segments; if the current value
is not a dict or the segment is absent, the result is `_MISSING`
(modelled as `none`). -/
def getSegsJ : Json → List String → Option Json
  | cur, [] => some cur
  | Json.obj fields, seg :: rest =>
      match alookup fields seg with
      | some v => getSegsJ v rest
      | none => none
  | _, _ :: _ => none

/-- `_get_by_path(obj, path)` on a top-level dict. -/
def getByPath (o : JObj) (path : String) : Option Json :=
  getSegsJ (Json.obj o) (splitDots path)

/-- Embedding of `APIGateway._map_item._set_by_path` (api_gateway.py
lines 247-256) at the value level: for every segment but the last,
fetch the next level, replacing it by a fresh empty dict whenever it is
absent or not a dict, and assign the value at the last segment.  The
source mutates `obj` in place; this pure version returns the resulting
value (see the heap model below for the in-place behaviour). -/
def setSegs (o : JObj) : List String → Json → JObj
  | [], _ => o
  | [last], v => ainsert o last v
  | seg :: next :: rest, v =>
      let nxt : JObj :=
        match alookup o seg with
        | some (Json.obj f) => f
        | _ => []
      ainsert o seg (Json.obj (setSegs nxt (next :: rest) v))

/-- `_set_by_path(obj, path, value)` with a dotted string path. -/
def setByPath (o : JObj) (path : String) (v : Json) : JObj :=
  setSegs o (splitDots path) v

/-- Embedding of `APIGateway._map_item._map_item_dotted` (api_gateway.py
lines 258-279) at the value level: start from a copy of `item`
(`copy.deepcopy`, the identity on values), and for each `src -> dst`
entry read the source path in the original `item`, skipping it when the
traversal fails, and otherwise write the value at `dst` in the copy.
The mapping is a list of pairs because Python dicts iterate in
insertion order. -/
def mapItem (item : JObj) (mapping : List (String × String)) : JObj :=
  mapping.foldl
    (fun out sd =>
      match getByPath item sd.1 with
      | some v => setByPath out sd.2 v
      | none => out)
    item

/-- Boolean prefix test on segment lists: `isPre p q` holds when `p` is
an initial segment of `q`.  Two destination paths interfere in
`_set_by_path` exactly when one is an initial segment of the other. -/
def isPre : List String → List String → Bool
  | [], _ => true
  | _ :: _, [] => false
  | a :: as, b :: bs => a == b && isPre as bs

/-- Writing a value at a path and reading the same path back yields the
value just written. -/
theorem getSegs_setSegs_self (o : JObj) (segs : List String) (v : Json)
    (h : segs ≠ []) :
    getSegsJ (Json.obj (setSegs o segs v)) segs = some v := by
  induction segs generalizing o with
  | nil => exact absurd rfl h
  | cons seg rest ih =>
    cases rest with
    | nil => simp [setSegs, getSegsJ, alookup_ainsert_self]
    | cons next rest2 =>
      simp only [setSegs, getSegsJ, alookup_ainsert_self]
      exact ih _ (by simp)

/-- Reading any path that is incomparable with `q` inside the fresh
skeleton that `_set_by_path` builds along `q` from an empty dict
fails. -/
theorem getSegs_fresh_incomp (q p : List String) (v : Json)
    (hp : p ≠ []) (h1 : isPre p q = false) (h2 : isPre q p = false) :
    getSegsJ (Json.obj (setSegs [] q v)) p = none := by
  induction q generalizing p with
  | nil => simp [isPre] at h2
  | cons y q2 ih =>
    cases p with
    | nil => exact absurd rfl hp
    | cons hd t1 =>
      by_cases hxy : hd = y
      · subst hxy
        cases q2 with
        | nil =>
          cases t1 with
          | nil => simp [isPre] at h1
          | cons a b => simp [isPre] at h2
        | cons n2 r2 =>
          cases t1 with
          | nil => simp [isPre] at h1
          | cons t1h t1t =>
            simp only [isPre, beq_self_eq_true, Bool.true_and] at h1 h2
            simp only [setSegs, getSegsJ, alookup_ainsert_self, alookup]
            exact ih (t1h :: t1t) (by simp) h1 h2
      · cases q2 with
        | nil => simp [setSegs, getSegsJ, alookup, ainsert, hxy, Ne.symm hxy]
        | cons n2 r2 => simp [setSegs, getSegsJ, alookup, ainsert, hxy, Ne.symm hxy]

/-- Frame property of `_set_by_path`: writing along a destination path
`q` does not change what a traversal along an incomparable path `p`
sees.  This is the sense in which remap entries with non-interfering
destinations do not disturb one another. -/
theorem getSegs_setSegs_frame (o : JObj) (p q : List String) (v : Json)
    (hp : p ≠ []) (h1 : isPre p q = false) (h2 : isPre q p = false) :
    getSegsJ (Json.obj (setSegs o q v)) p = getSegsJ (Json.obj o) p := by
  induction q generalizing p o with
  | nil => simp [isPre] at h2
  | cons y q2 ih =>
    cases p with
    | nil => exact absurd rfl hp
    | cons hd t1 =>
      by_cases hxy : hd = y
      · subst hxy
        cases q2 with
        | nil =>
          cases t1 with
          | nil => simp [isPre] at h1
          | cons a b => simp [isPre] at h2
        | cons n2 r2 =>
          cases t1 with
          | nil => simp [isPre] at h1
          | cons t1h t1t =>
            simp only [isPre, beq_self_eq_true, Bool.true_and] at h1 h2
            cases hv : alookup o hd with
            | none =>
              simp only [setSegs, getSegsJ, alookup_ainsert_self, hv]
              exact getSegs_fresh_incomp (n2 :: r2) (t1h :: t1t) v (by simp) h1 h2
            | some w =>
              cases w with
              | obj f =>
                simp only [setSegs, getSegsJ, alookup_ainsert_self, hv]
                exact ih f (t1h :: t1t) (by simp) h1 h2
              | null =>
                simp only [setSegs, getSegsJ, alookup_ainsert_self, hv]
                exact getSegs_fresh_incomp (n2 :: r2) (t1h :: t1t) v (by simp) h1 h2
              | num n =>
                simp only [setSegs, getSegsJ, alookup_ainsert_self, hv]
                exact getSegs_fresh_incomp (n2 :: r2) (t1h :: t1t) v (by simp) h1 h2
              | str s =>
                simp only [setSegs, getSegsJ, alookup_ainsert_self, hv]
                exact getSegs_fresh_incomp (n2 :: r2) (t1h :: t1t) v (by simp) h1 h2
              | bool b =>
                simp only [setSegs, getSegsJ, alookup_ainsert_self, hv]
                exact getSegs_fresh_incomp (n2 :: r2) (t1h :: t1t) v (by simp) h1 h2
              | arr xs =>
                simp only [setSegs, getSegsJ, alookup_ainsert_self, hv]
                exact getSegs_fresh_incomp (n2 :: r2) (t1h :: t1t) v (by simp) h1 h2
      · cases q2 with
        | nil =>
          simp only [setSegs, getSegsJ]
          rw [alookup_ainsert_ne _ _ _ _ hxy]
        | cons n2 r2 =>
          simp only [setSegs, getSegsJ]
          rw [alookup_ainsert_ne _ _ _ _ hxy]

/-- Helper for the remap copy theorem: once the fold over the remaining
entries starts from an accumulator that already holds `v` at `dsegs`,
and every remaining entry writes (if at all) at a destination
incomparable with `dsegs`, the fold preserves the value at `dsegs`. -/
theorem mapfold_preserve (item : JObj) (post : List (String × String))
    (acc : JObj) (dsegs : List String) (v : Json)
    (hd : dsegs ≠ [])
    (hacc : getSegsJ (Json.obj acc) dsegs = some v)
    (hinc : ∀ e ∈ post, isPre dsegs (splitDots e.2) = false ∧
      isPre (splitDots e.2) dsegs = false) :
    getSegsJ
      (Json.obj (post.foldl
        (fun out sd =>
          match getByPath item sd.1 with
          | some w => setByPath out sd.2 w
          | none => out)
        acc))
      dsegs = some v := by
  induction post generalizing acc with
  | nil => simpa using hacc
  | cons e rest ih =>
    simp only [List.foldl_cons]
    cases hg : getByPath item e.1 with
    | none =>
      simp only [hg]
      exact ih acc hacc (fun x hx => hinc x (by simp [hx]))
    | some w =>
      simp only [hg]
      refine ih _ ?_ (fun x hx => hinc x (by simp [hx]))
      obtain ⟨hi1, hi2⟩ := hinc e (by simp)
      rw [setByPath, getSegs_setSegs_frame acc dsegs (splitDots e.2) w hd hi1 hi2]
      exact hacc

/-- Claim C4, amended.  For a remap table whose destination paths are
pairwise incomparable (no destination equal to another, none an initial
segment of another), every entry whose dotted source path fully
traverses the input has its value copied verbatim to the destination
path in the output, with intermediate levels created as needed. -/
theorem remap_copies_value_incomparable_dests (item : JObj)
    (mapping : List (String × String)) (s d : String) (v : Json)
    (hmem : (s, d) ∈ mapping)
    (hpw : List.Pairwise
      (fun e1 e2 => isPre (splitDots e1.2) (splitDots e2.2) = false ∧
        isPre (splitDots e2.2) (splitDots e1.2) = false) mapping)
    (hsrc : getByPath item s = some v) :
    getByPath (mapItem item mapping) d = some v := by
  obtain ⟨pre, post, rfl⟩ := List.append_of_mem hmem
  rw [List.pairwise_append] at hpw
  have hpost := (List.pairwise_cons.mp hpw.2.1).1
  unfold mapItem
  rw [List.foldl_append, List.foldl_cons, hsrc]
  unfold getByPath
  refine mapfold_preserve item post _ (splitDots d) v (splitDots_ne_nil d) ?_ ?_
  · exact getSegs_setSegs_self _ (splitDots d) v (splitDots_ne_nil d)
  · intro e he
    exact hpost e he

/-- Input object for the claim C4 counterexample: two scalar fields. -/
def itemC4 : JObj := [("a", Json.num 1), ("b", Json.num 2)]

/-- Remap table for the claim C4 counterexample: the second destination
is an initial segment of the first, so the second write destroys the
first. -/
def mappingC4 : List (String × String) := [("a", "x.y"), ("b", "x")]

/-- Claim C4 as stated is false: in `mappingC4`, the source path of the
first entry fully traverses `itemC4` and yields 1, yet the output holds
no value at its destination path, because the later entry overwrote the
intermediate dict at `x` with the scalar 2. -/
theorem remap_colliding_destinations_drop_value :
    getByPath itemC4 "a" = some (Json.num 1) ∧
    getByPath (mapItem itemC4 mappingC4) "x.y" = none ∧
    mapItem itemC4 mappingC4 =
      [("a", Json.num 1), ("b", Json.num 2), ("x", Json.num 2)] :=
  ⟨rfl, rfl, rfl⟩

/-- Input object of the worked example in the specification. -/
def itemEx : JObj :=
  [("record", Json.obj [("overall", Json.obj [("pointsFor", Json.num 10)])])]

/-- Remap table of the worked example in the specification. -/
def mapEx : List (String × String) :=
  [("record.overall.pointsFor", "record.overall.points_for")]

/-- Witness for the amended claim C4, at the worked example from the
specification: the single-entry table copies 10 to the destination
path, and the full output is exactly the object the specification
displays. -/
theorem remap_copies_value_incomparable_dests_witness :
    getByPath (mapItem itemEx mapEx) "record.overall.points_for" =
      some (Json.num 10) ∧
    mapItem itemEx mapEx =
      [("record", Json.obj [("overall",
        Json.obj [("pointsFor", Json.num 10), ("points_for", Json.num 10)])])] :=
  ⟨remap_copies_value_incomparable_dests itemEx mapEx
      "record.overall.pointsFor" "record.overall.points_for" (Json.num 10)
      (by simp [mapEx]) (by simp [mapEx]) rfl,
    rfl⟩

/-- Claim C10.  When the destination dotted path has two or more
segments and the object already holds a non-dict value at the first
segment, `_set_by_path` replaces that value with the fresh skeleton
built for the rest of the path, so the pre-existing value is gone from
the output. -/
theorem set_by_path_clobbers_nondict (o : JObj) (p seg next : String)
    (rest : List String) (v w : Json)
    (hp : splitDots p = seg :: next :: rest)
    (hw : alookup o seg = some w)
    (hnd : ∀ f, w ≠ Json.obj f) :
    alookup (setByPath o p v) seg =
      some (Json.obj (setSegs [] (next :: rest) v)) ∧
    alookup (setByPath o p v) seg ≠ some w := by
  have hnxt : (match alookup o seg with
      | some (Json.obj f) => f
      | _ => ([] : JObj)) = ([] : JObj) := by
    rw [hw]
    cases w with
    | obj f => exact absurd rfl (hnd f)
    | null => rfl
    | num n => rfl
    | str s => rfl
    | bool b => rfl
    | arr xs => rfl
  constructor
  · rw [setByPath, hp]
    simp only [setSegs, hnxt, alookup_ainsert_self]
  · rw [setByPath, hp]
    simp only [setSegs, hnxt, alookup_ainsert_self]
    intro hcontra
    have : Json.obj (setSegs [] (next :: rest) v) = w := by
      injection hcontra
    exact hnd _ this.symm

/-- Witness for claim C10: writing 7 at `x.y` in an object where `x`
holds the scalar 5 replaces the 5 by the dict holding `y`. -/
theorem set_by_path_clobbers_nondict_witness :
    alookup (setByPath [("x", Json.num 5)] "x.y" (Json.num 7)) "x" =
      some (Json.obj [("y", Json.num 7)]) ∧
    alookup (setByPath [("x", Json.num 5)] "x.y" (Json.num 7)) "x" ≠
      some (Json.num 5) :=
  set_by_path_clobbers_nondict [("x", Json.num 5)] "x.y" "x" "y" []
    (Json.num 7) (Json.num 5) rfl rfl
    (fun f h => by cases h)

/-- Errors raised by the gateway pipeline.  `keyErr` carries the message
of a Python `KeyError`; `valErr` stands for a pydantic validation
error; `attrErr` stands for the `AttributeError` hit when `.get` is
called on a non-dict response body. -/
inductive Err where
  | keyErr (msg : String) : Err
  | valErr : Err
  | attrErr : Err
deriving DecidableEq

/-- Message of the missing-response-root `KeyError`
(api_gateway.py line 159); the source wraps both names in single
quotes, elided here. -/
def mkRootKeyErrMsg (key opName : String) : String :=
  "Key " ++ key ++ " not found in " ++ opName ++ "."

/-- Message of the unknown-model `KeyError` (api_gateway.py line 54). -/
def mkModelErrMsg (m : String) : String :=
  "Model " ++ m ++ " not in MODEL_REGISTRY."

/-- Message of the unknown-route `KeyError` (api_gateway.py line 200). -/
def mkRouteErrMsg (r : String) : String :=
  "Route " ++ r ++ " not defined in schema."

/-- Message of the unknown-base `KeyError` (api_gateway.py line 194). -/
def mkBaseErrMsg (b : String) : String :=
  "Base " ++ b ++ " not defined in schema."

/-- Message of the unknown-operation `KeyError`
(api_gateway.py line 206). -/
def mkOperationErrMsg (o : String) : String :=
  "Operation " ++ o ++ " not defined in schema."

/-- `BaseSpec` dataclass (api_gateway.py lines 26-30). -/
structure BaseSpec where
  name : String
  url : String
  method : String
deriving DecidableEq

/-- `RouteSpec` dataclass (api_gateway.py lines 32-36). -/
structure RouteSpec where
  name : String
  path : String
  base : String
deriving DecidableEq

/-- `OperationSpec` dataclass (api_gateway.py lines 38-46). -/
structure OperationSpec where
  name : String
  route : String
  params : List (String × String)
  model_name : Option String
  response_root : Option String
  response_form : Option String
  field_map : List (String × String)

/-- The names registered in `MODEL_REGISTRY` (api_gateway.py
lines 19-24); the pydantic classes themselves are external
collaborators, abstracted by a validator function below. -/
def MODEL_REGISTRY_NAMES : List String :=
  ["Team", "Player", "MatchupHistorical", "RosterMoveResponse"]

/-- `OperationSpec.model` (api_gateway.py lines 48-54): `None` when no
model name is declared, the registered model when the name is known,
and a `KeyError` when the name is absent from `MODEL_REGISTRY`. -/
def OperationSpec.model (op : OperationSpec) : Except Err (Option String) :=
  match op.model_name with
  | none => Except.ok none
  | some n =>
      if n ∈ MODEL_REGISTRY_NAMES then Except.ok (some n)
      else Except.error (Err.keyErr (mkModelErrMsg n))

/-- The registries an `APIGateway` instance holds after `__init__`
(api_gateway.py lines 77, 86, 95). -/
structure APIGateway where
  bases : List (String × BaseSpec)
  routes : List (String × RouteSpec)
  operations : List (String × OperationSpec)

/-- Raw `bases` entry of the YAML schema document. -/
structure RawBase where
  url : String
  method : String

/-- Raw `routes` entry of the YAML schema document. -/
structure RawRoute where
  path : String
  base : String

/-- Raw `operations` entry of the YAML schema document, with the
defaults `spec.get` supplies already applied for absent keys. -/
structure RawOperation where
  route : String
  params : List (String × String)
  model : Option String
  response_root : Option String
  response_form : Option String
  field_map : List (String × String)

/-- The parsed YAML schema document (`raw` in `__init__`). -/
structure RawSchema where
  bases : List (String × RawBase)
  routes : List (String × RawRoute)
  operations : List (String × RawOperation)

/-- Embedding of `APIGateway.__init__` (api_gateway.py lines 66-111)
restricted to its schema-loading work: each registry is populated
entry by entry from the document.  No cross-reference between the
three registries (or against `MODEL_REGISTRY`) is checked here; the
construction is total on a well-shaped document. -/
def APIGateway.init (raw : RawSchema) : APIGateway :=
  { bases := raw.bases.map (fun nb =>
      (nb.1, { name := nb.1, url := nb.2.url, method := nb.2.method.toUpper })),
    routes := raw.routes.map (fun nr =>
      (nr.1, { name := nr.1, path := nr.2.path, base := nr.2.base })),
    operations := raw.operations.map (fun no =>
      (no.1, { name := no.1, route := no.2.route, params := no.2.params,
               model_name := no.2.model, response_root := no.2.response_root,
               response_form := no.2.response_form,
               field_map := no.2.field_map })) }

/-- `APIGateway._get_base` (api_gateway.py lines 190-194). -/
def APIGateway.getBase (gw : APIGateway) (name : String) :
    Except Err BaseSpec :=
  match alookup gw.bases name with
  | some b => Except.ok b
  | none => Except.error (Err.keyErr (mkBaseErrMsg name))

/-- `APIGateway._get_route` (api_gateway.py lines 196-200). -/
def APIGateway.getRoute (gw : APIGateway) (name : String) :
    Except Err RouteSpec :=
  match alookup gw.routes name with
  | some r => Except.ok r
  | none => Except.error (Err.keyErr (mkRouteErrMsg name))

/-- `APIGateway._get_operation` (api_gateway.py lines 202-206). -/
def APIGateway.getOperation (gw : APIGateway) (name : String) :
    Except Err OperationSpec :=
  match alookup gw.operations name with
  | some op => Except.ok op
  | none => Except.error (Err.keyErr (mkOperationErrMsg name))

/-- The schema-resolution prefix of `APIGateway.request`
(api_gateway.py lines 132-134): operation, then its route, then the
route's base; the first unresolved name aborts the request with its
`KeyError`. -/
def APIGateway.resolveRequest (gw : APIGateway) (operation : String) :
    Except Err (OperationSpec × RouteSpec × BaseSpec) :=
  match gw.getOperation operation with
  | Except.error e => Except.error e
  | Except.ok op =>
    match gw.getRoute op.route with
    | Except.error e => Except.error e
    | Except.ok route =>
      match gw.getBase route.base with
      | Except.error e => Except.error e
      | Except.ok base => Except.ok (op, route, base)

/-- One element of a list response as prepared for validation
(api_gateway.py lines 175-178): dict elements are remapped, any other
element passes through unchanged. -/
def mapElem (fm : List (String × String)) (x : Json) : Json :=
  match x with
  | Json.obj fields => Json.obj (mapItem fields fm)
  | _ => x

/-- Embedding of the list comprehension
`[model_cls.model_validate(x) for x in mapped]`
(api_gateway.py line 179) with a fallible validator: the first
validation failure aborts the whole conversion. -/
def mapMOpt {α β : Type} (f : α → Option β) : List α → Option (List β)
  | [] => some []
  | x :: xs =>
      match f x with
      | none => none
      | some y =>
          match mapMOpt f xs with
          | none => none
          | some ys => some (y :: ys)

/-- Root-key extraction of `APIGateway.request` (api_gateway.py
lines 155-161): when the operation names a truthy response root,
`resp.get(root, None)` is consulted and a `None` result (key absent, or
key present with a null value) raises the missing-key `KeyError`
naming the key and the operation; calling `.get` on a non-dict body is
an `AttributeError`. -/
def extractRoot (op : OperationSpec) (resp : Json) : Except Err Json :=
  match op.response_root with
  | none => Except.ok resp
  | some r =>
      if r = "" then Except.ok resp
      else
        match resp with
        | Json.obj fields =>
          match alookup fields r with
          | none => Except.error (Err.keyErr (mkRootKeyErrMsg r op.name))
          | some Json.null =>
              Except.error (Err.keyErr (mkRootKeyErrMsg r op.name))
          | some d => Except.ok d
        | _ => Except.error Err.attrErr

/-- Result of `APIGateway.request`: the raw decoded body, one validated
model instance, or an ordered list of validated model instances.  `M`
abstracts the pydantic model type. -/
inductive RequestOutcome (M : Type) where
  | raw (j : Json) : RequestOutcome M
  | one (m : M) : RequestOutcome M
  | many (ms : List M) : RequestOutcome M

/-- The model-conversion tail of `APIGateway.request` (api_gateway.py
lines 166-183), after the root extraction produced `data`: a dict body
under `response_form = dict` is remapped and validated to one model; a
list body under `response_form = list` is remapped element-wise and
validated to a list of models; every other combination falls back to
returning the full payload `resp`.  The validator `v` abstracts
`model_cls.model_validate`, indexed by the model name. -/
def buildResult {M : Type} (op : OperationSpec) (v : String → Json → Option M)
    (m : String) (resp data : Json) : Except Err (RequestOutcome M) :=
  match op.response_form, data with
  | some "dict", Json.obj fields =>
      match v m (Json.obj (mapItem fields op.field_map)) with
      | some md => Except.ok (RequestOutcome.one md)
      | none => Except.error Err.valErr
  | some "list", Json.arr xs =>
      match mapMOpt (fun x => v m (mapElem op.field_map x)) xs with
      | some ms => Except.ok (RequestOutcome.many ms)
      | none => Except.error Err.valErr
  | _, _ => Except.ok (RequestOutcome.raw resp)

/-- The full post-HTTP pipeline of `APIGateway.request` (api_gateway.py
lines 147-183): resolve the operation's model (raising on an
unregistered name), return the raw body when no model is declared,
otherwise extract the response root and convert the data. -/
def convertResponse {M : Type} (op : OperationSpec)
    (v : String → Json → Option M) (resp : Json) :
    Except Err (RequestOutcome M) :=
  match OperationSpec.model op with
  | Except.error e => Except.error e
  | Except.ok none => Except.ok (RequestOutcome.raw resp)
  | Except.ok (some m) =>
      match extractRoot op resp with
      | Except.error e => Except.error e
      | Except.ok data => buildResult op v m resp data

/-- The query parameters `APIGateway.request` hands to the HTTP client
(api_gateway.py line 141): exactly the operation's schema-declared
defaults.  The method accepts no caller-supplied query parameters. -/
def sentQueryParams (op : OperationSpec) : List (String × String) :=
  op.params

/-- The keyword parameters `APIGateway.request` declares
(api_gateway.py lines 117-122). -/
def requestParameters : List String :=
  ["operation", "path_args", "payload"]

/-- The keyword arguments `League.get_teams` passes to
`APIGateway.request` on the historical path (league.py lines 29-33). -/
def leagueGetTeamsHistoricalArgs : List String :=
  ["operation", "path_args", "query_args"]

/-- `Position` dataclass (codebook.py lines 9-13). -/
structure Position where
  id : Int
  abbr : String
  name : String
deriving DecidableEq

/-- `ProTeam` dataclass (codebook.py lines 15-19). -/
structure ProTeam where
  id : Int
  abbr : String
  name : String
deriving DecidableEq

/-- `Codebook` state after `__init__` (codebook.py lines 22-31): the two
integer-keyed tables.  The sentinel attributes are the constants
`pos_unk` and `team_unk` below. -/
structure Codebook where
  positions_by_id : List (Int × Position)
  pro_teams_by_id : List (Int × ProTeam)

/-- The `pos_unk` sentinel (codebook.py line 30). -/
def pos_unk : Position := Position.mk (-1) "Unk" "Unknown"

/-- The `team_unk` sentinel (codebook.py line 31). -/
def team_unk : ProTeam := ProTeam.mk (-1) "Unk" "Unknown"

/-- `Codebook.position` (codebook.py lines 63-64):
`self._positions_by_id.get(int(id_), self.pos_unk)`. -/
def Codebook.position (cb : Codebook) (id_ : Int) : Position :=
  (alookup cb.positions_by_id id_).getD pos_unk

/-- `Codebook.pro_team` (codebook.py lines 66-67):
`self._pro_teams_by_id.get(int(id_), self.team_unk)`. -/
def Codebook.pro_team (cb : Codebook) (id_ : Int) : ProTeam :=
  (alookup cb.pro_teams_by_id id_).getD team_unk

/-- Claim C7.  `Codebook.position` and `Codebook.pro_team` return the
fixed unknown sentinel (id -1, abbr Unk, name Unknown) for every code
absent from the loaded table, and the stored record for every code
present; being total functions, they never raise. -/
theorem codebook_lookup_sentinel (cb : Codebook) (i : Int) :
    (alookup cb.positions_by_id i = none →
      cb.position i = Position.mk (-1) "Unk" "Unknown") ∧
    (∀ p, alookup cb.positions_by_id i = some p → cb.position i = p) ∧
    (alookup cb.pro_teams_by_id i = none →
      cb.pro_team i = ProTeam.mk (-1) "Unk" "Unknown") ∧
    (∀ t, alookup cb.pro_teams_by_id i = some t → cb.pro_team i = t) := by
  refine ⟨fun h => ?_, fun p h => ?_, fun h => ?_, fun t h => ?_⟩ <;>
    simp [Codebook.position, Codebook.pro_team, pos_unk, team_unk, h]

/-- A concrete loaded codebook for the claim C7 witness. -/
def cbW : Codebook :=
  { positions_by_id := [(1, Position.mk 1 "QB" "Quarterback")],
    pro_teams_by_id := [(2, ProTeam.mk 2 "GB" "Green Bay Packers")] }

/-- Witness for claim C7: code 99 is absent from both tables of `cbW`
and resolves to the sentinels; codes 1 and 2 are present and resolve to
the stored records. -/
theorem codebook_lookup_sentinel_witness :
    cbW.position 99 = Position.mk (-1) "Unk" "Unknown" ∧
    cbW.position 1 = Position.mk 1 "QB" "Quarterback" ∧
    cbW.pro_team 99 = ProTeam.mk (-1) "Unk" "Unknown" ∧
    cbW.pro_team 2 = ProTeam.mk 2 "GB" "Green Bay Packers" :=
  ⟨(codebook_lookup_sentinel cbW 99).1 (by decide),
    (codebook_lookup_sentinel cbW 1).2.1 (Position.mk 1 "QB" "Quarterback")
      (by decide),
    (codebook_lookup_sentinel cbW 99).2.2.1 (by decide),
    (codebook_lookup_sentinel cbW 2).2.2.2 (ProTeam.mk 2 "GB" "Green Bay Packers")
      (by decide)⟩

/-- Claim C1, evidence of the code bug.  `League.get_teams` passes a
`query_args` keyword on its historical path, but `APIGateway.request`
declares no such parameter (the call is a `TypeError` at runtime), and
the query-parameter set actually sent is exactly the operation's
schema-declared defaults: no caller override is ever merged. -/
theorem request_rejects_query_args :
    "query_args" ∈ leagueGetTeamsHistoricalArgs ∧
    "query_args" ∉ requestParameters ∧
    ∀ op : OperationSpec, sentQueryParams op = op.params :=
  ⟨by decide, by decide, fun _ => rfl⟩

/-- Claim C8.  When the operation declares no result model,
`APIGateway.request` returns the raw decoded body unchanged: no root
extraction, no remapping, no validation. -/
theorem no_model_returns_raw {M : Type} (op : OperationSpec)
    (v : String → Json → Option M) (resp : Json)
    (h : op.model_name = none) :
    convertResponse op v resp = Except.ok (RequestOutcome.raw resp) := by
  have hm : OperationSpec.model op = Except.ok none := by
    simp [OperationSpec.model, h]
  unfold convertResponse
  rw [hm]

/-- A model-less operation for the claim C8 witness, with a response
root and a field map declared, neither of which is consulted. -/
def op8 : OperationSpec :=
  { name := "raw_op", route := "r", params := [],
    model_name := none, response_root := some "teams",
    response_form := some "list", field_map := [("a", "b")] }

/-- Witness for claim C8: the raw body comes back exactly as received
even though `op8` names a response root that the body lacks. -/
theorem no_model_returns_raw_witness :
    convertResponse op8 (fun _ j => some j) (Json.num 5) =
      Except.ok (RequestOutcome.raw (Json.num 5)) :=
  no_model_returns_raw op8 (fun _ j => some j) (Json.num 5) rfl

/-- When every element validates, the element-wise conversion succeeds,
preserves length, and sends position `i` of the input to position `i`
of the output. -/
theorem mapMOpt_all_some {α β : Type} (f : α → Option β) (xs : List α)
    (h : ∀ x ∈ xs, (f x).isSome = true) :
    ∃ out, mapMOpt f xs = some out ∧ out.length = xs.length ∧
      ∀ (i : Nat) (x : α), xs[i]? = some x → out[i]? = f x := by
  induction xs with
  | nil =>
    refine ⟨[], rfl, rfl, ?_⟩
    intro i x hx
    simp at hx
  | cons a as ih =>
    have ha := h a (by simp)
    obtain ⟨y, hy⟩ := Option.isSome_iff_exists.mp ha
    obtain ⟨out, ho, hl, hp⟩ := ih (fun x hx => h x (by simp [hx]))
    refine ⟨y :: out, ?_, by simp [hl], ?_⟩
    · simp [mapMOpt, hy, ho]
    · intro i x hx
      cases i with
      | zero =>
        simp only [List.getElem?_cons_zero, Option.some.injEq] at hx
        subst hx
        simp [hy]
      | succ n =>
        simp only [List.getElem?_cons_succ] at hx ⊢
        exact hp n x hx

/-- Claim C6.  For an operation with `response_form = list` whose
root-extracted data is a JSON array in which every (remapped) element
validates, the request returns a list of validated models of the same
length as the array, with element `i` obtained from array element `i`. -/
theorem list_response_preserves_length_order {M : Type}
    (op : OperationSpec) (v : String → Json → Option M) (resp : Json)
    (m : String) (xs : List Json)
    (hm : OperationSpec.model op = Except.ok (some m))
    (hform : op.response_form = some "list")
    (hroot : extractRoot op resp = Except.ok (Json.arr xs))
    (hval : ∀ x ∈ xs, (v m (mapElem op.field_map x)).isSome = true) :
    ∃ out, convertResponse op v resp =
        Except.ok (RequestOutcome.many out) ∧
      out.length = xs.length ∧
      ∀ (i : Nat) (x : Json), xs[i]? = some x →
        out[i]? = v m (mapElem op.field_map x) := by
  obtain ⟨out, hout, hlen, hpt⟩ :=
    mapMOpt_all_some (fun x => v m (mapElem op.field_map x)) xs hval
  refine ⟨out, ?_, hlen, hpt⟩
  unfold convertResponse
  rw [hm, hroot]
  unfold buildResult
  rw [hform]
  simp only [hout]

/-- A list-form operation for the claim C6 witness. -/
def op6 : OperationSpec :=
  { name := "players_short", route := "players", params := [],
    model_name := some "Player", response_root := none,
    response_form := some "list", field_map := [] }

/-- Witness for claim C6 on a two-element array with the validator that
accepts every body: the output has length two and matches the input
order. -/
theorem list_response_preserves_length_order_witness :
    ∃ out, convertResponse op6 (fun _ j => some j)
        (Json.arr [Json.num 1, Json.num 2]) =
        Except.ok (RequestOutcome.many out) ∧
      out.length = [Json.num 1, Json.num 2].length ∧
      ∀ (i : Nat) (x : Json), [Json.num 1, Json.num 2][i]? = some x →
        out[i]? = some (mapElem op6.field_map x) :=
  list_response_preserves_length_order op6 (fun _ j => some j)
    (Json.arr [Json.num 1, Json.num 2]) "Player" [Json.num 1, Json.num 2]
    rfl rfl rfl (fun _ _ => rfl)

/-- The conversion tail never raises a `KeyError`: its outcomes are
success or a validation error.  Hence, once the model resolved, the
missing-key error can only come from the root extraction. -/
theorem buildResult_ne_keyErr {M : Type} (op : OperationSpec)
    (v : String → Json → Option M) (m : String) (resp data : Json)
    (msg : String) :
    buildResult op v m resp data ≠ Except.error (Err.keyErr msg) := by
  unfold buildResult
  split
  · split <;> simp
  · split <;> simp
  · simp

/-- Claim C3, amended.  For an operation with a registered model and a
truthy response root, applied to a decoded dict body, the request
raises the missing-key `KeyError` naming the key and the operation
exactly when the root key is absent from the body or present with a
null value (the source tests `resp.get(root, None) is None`, which
cannot tell the two apart). -/
theorem missing_root_key_error_iff {M : Type} (op : OperationSpec)
    (v : String → Json → Option M) (fields : JObj) (m r : String)
    (hm : op.model_name = some m) (hmem : m ∈ MODEL_REGISTRY_NAMES)
    (hr : op.response_root = some r) (hre : ¬ r = "") :
    (convertResponse op v (Json.obj fields) =
        Except.error (Err.keyErr (mkRootKeyErrMsg r op.name)) ↔
      (alookup fields r = none ∨ alookup fields r = some Json.null)) := by
  have hmodel : OperationSpec.model op = Except.ok (some m) := by
    simp [OperationSpec.model, hm, hmem]
  unfold convertResponse
  rw [hmodel]
  unfold extractRoot
  rw [hr]
  simp only [if_neg hre]
  cases hv : alookup fields r with
  | none => simp
  | some w =>
    cases w with
    | null => simp
    | num n => simp [buildResult_ne_keyErr]
    | str s => simp [buildResult_ne_keyErr]
    | bool b => simp [buildResult_ne_keyErr]
    | arr xs => simp [buildResult_ne_keyErr]
    | obj f => simp [buildResult_ne_keyErr]

/-- An operation with a registered model and response root `teams`, for
the claim C3 counterexample and witness. -/
def op3 : OperationSpec :=
  { name := "league_teams", route := "r", params := [],
    model_name := some "Team", response_root := some "teams",
    response_form := some "dict", field_map := [] }

/-- Claim C3 as stated is false in its "only when absent" half: a body
in which the key `teams` is present but bound to JSON null still raises
the missing-key error, because `resp.get` returns `None` for it. -/
theorem response_root_present_null_raises :
    alookup [("teams", Json.null)] "teams" = some Json.null ∧
    convertResponse op3 (fun _ j => some j)
        (Json.obj [("teams", Json.null)]) =
      Except.error (Err.keyErr (mkRootKeyErrMsg "teams" "league_teams")) :=
  ⟨rfl, rfl⟩

/-- Witness for the amended claim C3, in both directions: a body
lacking `teams` raises the missing-key error naming key and operation,
and a body holding a dict at `teams` does not raise it. -/
theorem missing_root_key_error_iff_witness :
    convertResponse op3 (fun _ j => some j) (Json.obj [("x", Json.num 1)]) =
      Except.error (Err.keyErr (mkRootKeyErrMsg "teams" "league_teams")) ∧
    ¬ convertResponse op3 (fun _ j => some j)
        (Json.obj [("teams", Json.obj [])]) =
      Except.error (Err.keyErr (mkRootKeyErrMsg "teams" "league_teams")) :=
  ⟨(missing_root_key_error_iff op3 (fun _ j => some j) [("x", Json.num 1)]
      "Team" "teams" rfl (by decide) rfl (by decide)).mpr (Or.inl rfl),
    fun hcontra =>
      by
        have := (missing_root_key_error_iff op3 (fun _ j => some j)
          [("teams", Json.obj [])] "Team" "teams" rfl (by decide) rfl
          (by decide)).mp hcontra
        simp [alookup] at this⟩

/-- A raw schema document whose single operation references a route
name and a model name that no registry defines. -/
def rawDangling : RawSchema :=
  { bases := [],
    routes := [],
    operations := [("teams",
      { route := "nope", params := [], model := some "Nope",
        response_root := none, response_form := some "list",
        field_map := [] })] }

/-- The gateway `__init__` builds from `rawDangling`. -/
def gwD : APIGateway := APIGateway.init rawDangling

/-- The dangling operation as it sits in `gwD` after construction. -/
def opD : OperationSpec :=
  { name := "teams", route := "nope", params := [], model_name := some "Nope",
    response_root := none, response_form := some "list", field_map := [] }

/-- Claim C2 as stated is false: schema loading performs no reference
validation, so the gateway is successfully constructed with an
operation whose route name resolves nowhere and whose model name is
absent from the model registry. -/
theorem init_accepts_dangling_references :
    alookup gwD.operations "teams" = some opD ∧
    alookup gwD.routes opD.route = none ∧
    opD.model_name = some "Nope" ∧
    "Nope" ∉ MODEL_REGISTRY_NAMES :=
  ⟨rfl, rfl, rfl, by decide⟩

/-- Claim C2, amended.  Dangling references are not rejected at
construction; they are detected when the operation is requested: an
unresolved route or base name aborts the resolution prefix of
`request` with the corresponding `KeyError`, and an unregistered model
name makes the model lookup inside `request` raise its `KeyError`. -/
theorem dangling_references_fail_at_request_time (gw : APIGateway)
    (o : String) (op : OperationSpec) (mn : String)
    (hop : gw.getOperation o = Except.ok op) :
    (alookup gw.routes op.route = none →
      gw.resolveRequest o =
        Except.error (Err.keyErr (mkRouteErrMsg op.route))) ∧
    (∀ rt, alookup gw.routes op.route = some rt →
      alookup gw.bases rt.base = none →
      gw.resolveRequest o =
        Except.error (Err.keyErr (mkBaseErrMsg rt.base))) ∧
    (op.model_name = some mn → mn ∉ MODEL_REGISTRY_NAMES →
      OperationSpec.model op =
        Except.error (Err.keyErr (mkModelErrMsg mn))) := by
  refine ⟨fun hroute => ?_, fun rt hrt hbase => ?_, fun hmn hreg => ?_⟩
  · simp [APIGateway.resolveRequest, APIGateway.getRoute, hop, hroute]
  · simp [APIGateway.resolveRequest, APIGateway.getRoute,
      APIGateway.getBase, hop, hrt, hbase]
  · simp [OperationSpec.model, hmn, hreg]

/-- Witness for the amended claim C2: requesting the dangling operation
of `gwD` fails with the route `KeyError`, and its model lookup fails
with the model-registry `KeyError`. -/
theorem dangling_references_fail_at_request_time_witness :
    gwD.resolveRequest "teams" =
      Except.error (Err.keyErr (mkRouteErrMsg "nope")) ∧
    OperationSpec.model opD =
      Except.error (Err.keyErr (mkModelErrMsg "Nope")) :=
  ⟨(dangling_references_fail_at_request_time gwD "teams" opD "Nope" rfl).1 rfl,
    (dangling_references_fail_at_request_time gwD "teams" opD "Nope" rfl).2.2
      rfl (by decide)⟩

/-- Heap-model values: scalars are immediate, every dict is a reference
into the store.  This mirrors Python object identity, which the pure
model above cannot see: `_get_by_path` returns the stored object
itself, and `_set_by_path(out, dst, val)` installs that object without
copying it, so `out` can alias sub-objects of the input. -/
inductive HVal where
  | null : HVal
  | num (n : Int) : HVal
  | str (s : String) : HVal
  | ref (a : Nat) : HVal
deriving DecidableEq

/-- Fields of one heap-allocated dict. -/
abbrev HObj := List (String × HVal)

/-- The heap: finitely many allocated dicts and the next fresh
address. -/
structure Store where
  objs : List (Nat × HObj)
  next : Nat

/-- Dereference an address (addresses in use are always present). -/
def Store.getObj (st : Store) (a : Nat) : HObj :=
  (alookup st.objs a).getD []

/-- Overwrite the dict at an address: in-place mutation of a Python
dict. -/
def Store.setObj (st : Store) (a : Nat) (o : HObj) : Store :=
  { st with objs := ainsert st.objs a o }

/-- Allocate a fresh dict. -/
def Store.alloc (st : Store) (o : HObj) : Store × Nat :=
  ({ objs := ainsert st.objs st.next o, next := st.next + 1 }, st.next)

/-- Copy each field of a dict with the supplied value-copier, threading
the store left to right. -/
def copyFieldsWith (cp : Store → HVal → Store × HVal) :
    Store → HObj → Store × HObj
  | st, [] => (st, [])
  | st, (k, v) :: rest =>
      let p := cp st v
      let q := copyFieldsWith cp p.1 rest
      (q.1, (k, p.2) :: q.2)

/-- Embedding of `copy.deepcopy` (api_gateway.py line 266) on the heap:
every reachable dict is re-allocated at a fresh address.  The fuel
argument only bounds the recursion depth; `mapItemH` passes
`st.next + 1`, which exceeds the depth of any acyclic store because a
reference chain visits distinct addresses. -/
def deepcopyH (fuel : Nat) : Store → HVal → Store × HVal :=
  Nat.rec (motive := fun _ => Store → HVal → Store × HVal)
    (fun st v => (st, v))
    (fun _ ih st v =>
      match v with
      | HVal.ref a =>
          let p := copyFieldsWith ih st (st.getObj a)
          let q := Store.alloc p.1 p.2
          (q.1, HVal.ref q.2)
      | w => (st, w))
    fuel

/-- Read a heap value back as a pure JSON value, to state what a Python
caller would observe when printing the object.  Fuel as in
`deepcopyH`. -/
def readH (fuel : Nat) : Store → HVal → Json :=
  Nat.rec (motive := fun _ => Store → HVal → Json)
    (fun _ _ => Json.null)
    (fun _ ih st v =>
      match v with
      | HVal.ref a =>
          Json.obj ((st.getObj a).map (fun kv => (kv.1, ih st kv.2)))
      | HVal.null => Json.null
      | HVal.num n => Json.num n
      | HVal.str s => Json.str s)
    fuel

/-- `_get_by_path` on the heap (api_gateway.py lines 233-245): the
traversal dereferences the live store, and the value it returns for a
dict is the reference itself, preserving identity. -/
def getByPathH (st : Store) : HVal → List String → Option HVal
  | cur, [] => some cur
  | HVal.ref a, seg :: rest =>
      match alookup (st.getObj a) seg with
      | some v => getByPathH st v rest
      | none => none
  | _, _ :: _ => none

/-- `_set_by_path` on the heap (api_gateway.py lines 247-256): descend
from the dict at `cura`; an intermediate that is absent or not a dict
is replaced by a freshly allocated empty dict; the final segment is
assigned in place.  Descending through a reference mutates whatever
object the reference aliases. -/
def setSegsH (st : Store) (cura : Nat) : List String → HVal → Store
  | [], _ => st
  | [last], v => st.setObj cura (ainsert (st.getObj cura) last v)
  | seg :: next :: rest, v =>
      match alookup (st.getObj cura) seg with
      | some (HVal.ref b) => setSegsH st b (next :: rest) v
      | _ =>
          let q := st.alloc []
          let st2 :=
            q.1.setObj cura (ainsert (q.1.getObj cura) seg (HVal.ref q.2))
          setSegsH st2 q.2 (next :: rest) v

/-- `_map_item_dotted` on the heap (api_gateway.py lines 258-279):
deep-copy the item, then fold over the mapping entries, reading each
source path from the ORIGINAL item through the CURRENT store — so a
mutation that an earlier entry performed through an alias is visible to
later source reads — and writing the found value into the copy. -/
def mapItemH (st : Store) (itemA : Nat) (mapping : List (String × String)) :
    Store × Nat :=
  let p := deepcopyH (st.next + 1) st (HVal.ref itemA)
  let outA : Nat := match p.2 with | HVal.ref b => b | _ => itemA
  let stF := mapping.foldl
    (fun st2 sd =>
      match getByPathH st2 (HVal.ref itemA) (splitDots sd.1) with
      | some v => setSegsH st2 outA (splitDots sd.2) v
      | none => st2)
    p.1
  (stF, outA)

/-- The heap encoding of the Python input `{"a": {"b": 1}}`: the outer
dict at address 0, its sub-dict at address 1. -/
def st9 : Store :=
  { objs := [(0, [("a", HVal.ref 1)]), (1, [("b", HVal.num 1)])], next := 2 }

/-- The remap table `{"a": "x", "a.b": "x.y"}` of the claim C9 failing
input. -/
def m9 : List (String × String) := [("a", "x"), ("a.b", "x.y")]

/-- Claim C9 is false of the code: the first entry of `m9` installs the
input's sub-dict `{"b": 1}` into the copy by reference, and the second
entry's write descends through that alias, so after `_map_item` the
INPUT object reads back as `{"a": {"b": 1, "y": 1}}` — it has been
mutated. -/
theorem map_item_mutates_input_via_alias :
    readH 8 st9 (HVal.ref 0) =
      Json.obj [("a", Json.obj [("b", Json.num 1)])] ∧
    readH 8 (mapItemH st9 0 m9).1 (HVal.ref 0) =
      Json.obj [("a", Json.obj [("b", Json.num 1), ("y", Json.num 1)])] :=
  ⟨rfl, rfl⟩

/-- The remap table `{"a": "x", "a.b": "x.y", "a.y": "z"}` of the claim
C5 failing input. -/
def m5 : List (String × String) :=
  [("a", "x"), ("a.b", "x.y"), ("a.y", "z")]

/-- Claim C5 is false of the code: the source path `a.y` of the third
entry of `m5` does not traverse the input `{"a": {"b": 1}}` (its final
segment is absent), yet the entry is not skipped — the first two
entries mutated the input through an alias, making `a.y` readable — and
the destination key `z` IS created in the output. -/
theorem remap_silent_skip_violated :
    getByPathH st9 (HVal.ref 0) (splitDots "a.y") = none ∧
    readH 8 (mapItemH st9 0 m5).1 (HVal.ref (mapItemH st9 0 m5).2) =
      Json.obj [("a", Json.obj [("b", Json.num 1)]),
        ("x", Json.obj [("b", Json.num 1), ("y", Json.num 1)]),
        ("z", Json.num 1)] :=
  ⟨rfl, rfl⟩
